import Mathlib

/-!
Shallow embedding of `src/main.py` (a tkinter YouTube → MP3/MP4 converter).

The program has three parts the claims talk about:
* `download_worker` (lines 48-156): builds a `yt_dlp` option dictionary from a
  `Job`, runs the download, and reports events (`status`/`progress`/`done`/
  `error`) to a FIFO queue `ui_q`.  External effects (the filesystem,
  `os.makedirs`, and the `YoutubeDL.download` call with its progress
  callbacks) are modelled by an explicit environment `WorkerEnv`; the worker
  becomes a pure function from job and environment to the list of events it
  puts on the queue, in order.
* `start_download` (lines 191-219): the UI submit handler, modelled as a pure
  function from the widget contents to the actions it performs.
* `poll_queue` (lines 221-246): the UI poll loop, modelled as a function
  consuming a list of queued events.

Numbers carried by progress callbacks are Python floats; they are modelled as
rationals (`ℚ`).  Paths use the POSIX separator.
-/

namespace YtConv

/-- Embeds `os.path.join` (POSIX separator). -/
def pathJoin (a b : String) : String := a ++ "/" ++ b

/-- Embeds `FFMPEG_BIN_DIR` (main.py lines 16-20), relative to `BASE_DIR`. -/
def FFMPEG_BIN_DIR (baseDir : String) : String :=
  pathJoin (pathJoin baseDir "ffmpeg-2025-01-30-git-1911a6ec26-full_build") "bin"

/-- The filesystem facts the program consults, plus `os.name == "nt"`. -/
structure Fs where
  isDir : String → Bool
  isFile : String → Bool
  isWindows : Bool

/-- Embeds `_bin_exists` (main.py lines 22-23). -/
def _bin_exists (fs : Fs) (bin_dir exe_name : String) : Bool :=
  fs.isDir bin_dir && fs.isFile (pathJoin bin_dir exe_name)

/-- Embeds `_ffmpeg_bundle_ok` (main.py lines 25-29). -/
def _ffmpeg_bundle_ok (fs : Fs) (ffmpeg_dir : String) : Bool :=
  let ffmpeg_exe := if fs.isWindows then "ffmpeg.exe" else "ffmpeg"
  let ffprobe_exe := if fs.isWindows then "ffprobe.exe" else "ffprobe"
  _bin_exists fs ffmpeg_dir ffmpeg_exe && _bin_exists fs ffmpeg_dir ffprobe_exe

/-- Embeds `_safe_mkdir` (main.py lines 31-32): `os.makedirs(path, exist_ok=True)`
on a filesystem modelled as the list of existing directories.  With
`exist_ok=True` the call never raises when the directory already exists. -/
def _safe_mkdir (dirs : List String) (path : String) : List String :=
  if path ∈ dirs then dirs else path :: dirs

/-- The frozen dataclass `Job` (main.py lines 37-43). -/
structure Job where
  url : String
  out_dir : String
  mode : String
  mp3_kbps : String
  mp4_height : String
deriving DecidableEq

/-- An event put on `ui_q`: a `(msg_type, payload)` pair. -/
inductive Event where
  | status (text : String)
  | progress (pct : ℚ)
  | done (msg : String)
  | error (msg : String)
deriving DecidableEq

/-- Events `done` and `error` are the terminal events. -/
def Event.isTerminal : Event → Bool
  | Event.done _ => true
  | Event.error _ => true
  | _ => false

/-- The dictionary `d` passed to `progress_hook` by yt-dlp (the keys the hook
reads; an absent key is `none`). -/
structure ProgressDict where
  status : Option String
  total_bytes : Option ℚ
  total_bytes_estimate : Option ℚ
  downloaded_bytes : Option ℚ
deriving DecidableEq

/-- Python `a or b` on optional numbers: `a` unless `a` is `None` or `0`. -/
def pyOr (a b : Option ℚ) : Option ℚ :=
  match a with
  | some x => if x = 0 then b else some x
  | none => b

/-- Python's `f"{q:.1f}"`: one-decimal rendering (rounding to nearest). -/
def fmt1 (q : ℚ) : String :=
  let n : Int := round (q * 10)
  (if n < 0 then "-" else "") ++ toString (n.natAbs / 10) ++ "." ++ toString (n.natAbs % 10)

/-- Embeds `progress_hook` (main.py lines 61-74): the events one callback puts on
`ui_q`.  `d.get("downloaded_bytes", 0)` defaults to `0`; the Python guard
`if total and total > 0` is false when `total` is `None` or `0`
(falsy) and otherwise tests `total > 0`. -/
def progress_hook (d : ProgressDict) : List Event :=
  if d.status = some "downloading" then
    let total := pyOr d.total_bytes d.total_bytes_estimate
    let downloaded := d.downloaded_bytes.getD 0
    match total with
    | some t =>
      if 0 < t then
        let pct := downloaded / t * 100
        [Event.progress pct, Event.status ("Downloading… " ++ fmt1 pct ++ "%")]
      else
        [Event.status "Downloading…"]
    | none => [Event.status "Downloading…"]
  else if d.status = some "finished" then
    [Event.progress 100, Event.status "Download finished. Processing with FFmpeg…"]
  else []

/-- A yt-dlp postprocessor entry (the two shapes main.py builds). -/
inductive Postprocessor where
  | FFmpegExtractAudio (preferredcodec : String) (preferredquality : String)
  | FFmpegVideoConvertor (preferedformat : String)
deriving DecidableEq

/-- The `ydl_opts` dictionary (the keys main.py sets; keys that are only set
on some paths are `Option`). -/
structure YdlOpts where
  outtmpl : String
  noplaylist : Bool
  restrictfilenames : Bool
  windowsfilenames : Bool
  retries : Nat
  fragment_retries : Nat
  consoletitle : Bool
  nocheckcertificate : Bool
  ffmpeg_location : Option String
  format : Option String
  merge_output_format : Option String
  postprocessors : List Postprocessor
deriving DecidableEq

/-- The common part of `ydl_opts` (main.py lines 77-97), including the
`ffmpeg_location` override set only when the bundle check succeeded. -/
def base_opts (job : Job) (ffmpeg_ok : Bool) (baseDir : String) : YdlOpts where
  outtmpl := pathJoin job.out_dir "%(title).200s [%(id)s].%(ext)s"
  noplaylist := true
  restrictfilenames := true
  windowsfilenames := true
  retries := 5
  fragment_retries := 5
  consoletitle := false
  nocheckcertificate := false
  ffmpeg_location := if ffmpeg_ok then some (FFMPEG_BIN_DIR baseDir) else none
  format := none
  merge_output_format := none
  postprocessors := []

/-- The height-constrained video format string (main.py lines 126-131). -/
def video_fmt (h : String) : String :=
  "bestvideo[ext=mp4][height<=" ++ h ++ "]+bestaudio[ext=m4a]" ++
  "/bestvideo[height<=" ++ h ++ "]+bestaudio" ++
  "/best[height<=" ++ h ++ "]" ++
  "/best"

/-- The format expression chosen for mode `video` (main.py lines 121-131). -/
def video_format_expr (mp4_height : String) : String :=
  if mp4_height = "best" then
    "bestvideo[ext=mp4]+bestaudio[ext=m4a]/best[ext=mp4]/best"
  else
    video_fmt mp4_height

/-- The status label for mode `video` (main.py lines 123, 132). -/
def video_label (mp4_height : String) : String :=
  if mp4_height = "best" then
    "Downloading MP4 (best available)…"
  else
    "Downloading MP4 (≤" ++ mp4_height ++ "p)…"

/-- The final `ydl_opts` after the mode dispatch (main.py lines 99-148);
`none` when the mode is invalid (the `raise ValueError` branch). -/
def ydl_opts (job : Job) (ffmpeg_ok : Bool) (baseDir : String) : Option YdlOpts :=
  let opts := base_opts job ffmpeg_ok baseDir
  if job.mode = "audio" then
    some { opts with
           format := some "bestaudio/best"
           postprocessors := [Postprocessor.FFmpegExtractAudio "mp3" job.mp3_kbps] }
  else if job.mode = "video" then
    some { opts with
           format := some (video_format_expr job.mp4_height)
           merge_output_format := some "mp4"
           postprocessors := [Postprocessor.FFmpegVideoConvertor "mp4"] }
  else
    none

/-- What `ydl.download([job.url])` does: it invokes the progress hook on a
sequence of callback dictionaries and then either returns or raises. -/
inductive DownloadOutcome where
  | ok (callbacks : List ProgressDict)
  | raises (callbacks : List ProgressDict) (msg : String)

/-- The worker's external environment: the result of `os.makedirs` (which may
raise, e.g. on a permission error), the filesystem consulted by the bundle
check, and the behaviour of the `YoutubeDL.download` call. -/
structure WorkerEnv where
  mkdir_result : Except String Unit
  fs : Fs
  outcome : DownloadOutcome

/-- The events produced by the progress hook over a whole download. -/
def hook_events (cbs : List ProgressDict) : List Event :=
  (cbs.map progress_hook).flatten

/-- The status event put when the bundled FFmpeg is missing (main.py line 97). -/
def bundled_missing_msg : String :=
  "Bundled FFmpeg not found. Using system FFmpeg (PATH)…"

/-- The `ydl.download` call plus the terminal event (main.py lines 150-153,
and the `except` clause at 155-156 for an exception raised mid-download). -/
def run_download (job : Job) (env : WorkerEnv) : List Event :=
  match env.outcome with
  | DownloadOutcome.ok cbs =>
    hook_events cbs ++ [Event.done ("Complete!\nSaved in:\n" ++ job.out_dir)]
  | DownloadOutcome.raises cbs msg =>
    hook_events cbs ++ [Event.error ("An error occurred:\n" ++ msg)]

/-- The events put before the mode dispatch (main.py lines 93-97): a fallback
notice when the bundled FFmpeg check failed, nothing otherwise. -/
def ffmpeg_pre (ffmpeg_ok : Bool) : List Event :=
  if ffmpeg_ok then [] else [Event.status bundled_missing_msg]

/-- The worker body after a successful `_safe_mkdir` (main.py lines 59-153,
with the `except` clause 155-156 applied to the invalid-mode `raise` and to a
failure of the library call). -/
def worker_body (baseDir : String) (job : Job) (env : WorkerEnv) : List Event :=
  let ffmpeg_ok := _ffmpeg_bundle_ok env.fs (FFMPEG_BIN_DIR baseDir)
  let pre := ffmpeg_pre ffmpeg_ok
  if job.mode = "audio" then
    pre ++ run_download job env
  else if job.mode = "video" then
    pre ++ [Event.status (video_label job.mp4_height)] ++ run_download job env
  else
    pre ++ [Event.error ("An error occurred:\n" ++ "Invalid mode. Expected 'audio' or 'video'.")]

/-- Embeds `download_worker` (main.py lines 48-156) as the ordered list of events it
puts on `ui_q`.  The whole body sits in a `try`, so every exception — from
`_safe_mkdir`, from the invalid-mode `raise ValueError`, or from the library —
is converted by the `except` clause into one `error` event; the function
itself always returns (it never raises to its caller). -/
def download_worker (baseDir : String) (job : Job) (env : WorkerEnv) : List Event :=
  match env.mkdir_result with
  | Except.error e => [Event.error ("An error occurred:\n" ++ e)]
  | Except.ok _ => worker_body baseDir job env

/-- Python's `str.strip()` on a character list: drop whitespace from both
ends. -/
def stripChars (l : List Char) : List Char :=
  ((l.dropWhile Char.isWhitespace).reverse.dropWhile Char.isWhitespace).reverse

/-- Python's `str.strip()`. -/
def pyStrip (s : String) : String := String.mk (stripChars s.data)

/-- The widget contents read by `start_download` (main.py lines 192-209). -/
structure UIInput where
  link_text : String
  folder_text : String
  mode_sel : String
  mp3_sel : String
  mp4_sel : String

/-- The observable actions of one `start_download` call: the error dialog
shown (if any), the worker thread spawned with its `Job` (if any), the write
to the busy flag via `set_ui_busy` (`none` = untouched), whether the progress
bar was reset, and the status text written (if any). -/
structure SubmitResult where
  error_dialog : Option String
  spawned : Option Job
  busy_set : Option Bool
  progress_reset : Bool
  status_set : Option String
deriving DecidableEq

/-- Embeds `start_download` (main.py lines 191-219).  `folder or default` falls to
the default when the stripped folder text is empty (falsy). -/
def start_download (baseDir : String) (inp : UIInput) : SubmitResult :=
  let url := pyStrip inp.link_text
  if url = "" then
    { error_dialog := some "Please enter a YouTube video link."
      spawned := none
      busy_set := none
      progress_reset := false
      status_set := none }
  else
    let out_dir := if pyStrip inp.folder_text = "" then pathJoin baseDir "downloads"
                   else pyStrip inp.folder_text
    { error_dialog := none
      spawned := some { url := url, out_dir := out_dir, mode := inp.mode_sel,
                        mp3_kbps := inp.mp3_sel, mp4_height := inp.mp4_sel }
      busy_set := some true
      progress_reset := true
      status_set := some "Starting…" }

/-- The fraction `progress_bar.set` receives (main.py lines 230-231):
`max(0.0, min(1.0, pct / 100.0))`. -/
def render_progress (pct : ℚ) : ℚ := max 0 (min 1 (pct / 100))

/-- The UI state `poll_queue` mutates: status label text, progress-bar
fraction, the busy flag (via `set_ui_busy`), and the modal dialog shown at a
terminal event (`true` = error dialog). -/
structure UIState where
  status_text : String
  progress_frac : ℚ
  busy : Bool
  dialog : Option (Bool × String)
deriving DecidableEq

/-- Embeds `poll_queue` (main.py lines 221-246) run over the queued events, oldest
first: it processes events until the queue is empty (returns `false`: the
loop reschedules itself) or a terminal event is read (returns `true`: the
loop re-arms the UI and returns).  The middle component is what is left on
the queue when the loop stops. -/
def poll_queue : List Event → UIState → UIState × List Event × Bool
  | [], s => (s, [], false)
  | Event.status t :: rest, s => poll_queue rest { s with status_text := t }
  | Event.progress p :: rest, s => poll_queue rest { s with progress_frac := render_progress p }
  | Event.done m :: rest, s =>
    ({ s with status_text := "Done.", busy := false, dialog := some (false, m) }, rest, true)
  | Event.error m :: rest, s =>
    ({ s with status_text := "Error.", busy := false, dialog := some (true, m) }, rest, true)

/-- The MP3-bitrate option menu values (main.py line 293). -/
def mp3_menu_values : List String := ["128", "192", "256", "320"]

/-- The MP4-height option menu values (main.py line 300). -/
def mp4_menu_values : List String := ["best", "2160", "1440", "1080", "720", "480", "360"]

/-- Splits a character list at `'/'` (observer used to talk about the
alternatives of a yt-dlp format expression). -/
def splitSlash : List Char → List (List Char)
  | [] => [[]]
  | c :: cs =>
    match splitSlash cs with
    | [] => [[]]
    | g :: gs => if c = '/' then [] :: g :: gs else (c :: g) :: gs

/-- The `/`-separated alternatives of a format expression. -/
def alternatives (s : String) : List String :=
  (splitSlash s.data).map String.mk

/-- Whether `pat` occurs at the start of `s`. -/
def startsWithChars : List Char → List Char → Bool
  | [], _ => true
  | _ :: _, [] => false
  | a :: as, b :: bs => a == b && startsWithChars as bs

/-- Whether `pat` occurs anywhere inside `s`. -/
def hasSubstrChars (pat : List Char) : List Char → Bool
  | [] => startsWithChars pat []
  | b :: bs => startsWithChars pat (b :: bs) || hasSubstrChars pat bs

/-- Whether the string `pat` occurs inside the string `s`. -/
def strHasSubstr (pat s : String) : Bool := hasSubstrChars pat.data s.data

/-! Concrete fixtures used to evaluate the definitions on closed inputs. -/

/-- A filesystem on which every existence check fails (POSIX). -/
def fsNone : Fs := ⟨fun _ => false, fun _ => false, false⟩

/-- A filesystem on which every existence check succeeds (POSIX). -/
def fsAll : Fs := ⟨fun _ => true, fun _ => true, false⟩

/-- The audio job of the spec's scenario (bitrate 320, default out dir). -/
def jobAudio : Job := ⟨"https://example.com/watch?v=abc", "/base/downloads", "audio", "320", "1080"⟩

/-- A video job at height 720. -/
def jobVideo : Job := ⟨"u", "/d", "video", "192", "720"⟩

/-- A job with a mode that is neither `audio` nor `video`. -/
def jobBadMode : Job := ⟨"u", "/d", "playlist", "192", "720"⟩

/-- Widget contents with a whitespace-only URL. -/
def uiEmptyUrl : UIInput := ⟨"   ", "folder", "audio", "192", "1080"⟩

/-- Widget contents of the spec's scenario: audio at 320, empty destination. -/
def uiScenario : UIInput := ⟨"https://example.com/watch?v=abc", "", "audio", "320", "1080"⟩

/-- A downloading callback with no usable total. -/
def dictNoTotal : ProgressDict := ⟨some "downloading", none, none, some 5⟩

/-- A downloading callback with total 200 and 100 bytes downloaded. -/
def dictTotal : ProgressDict := ⟨some "downloading", some 200, none, some 100⟩

/-- An idle UI state. -/
def uiState0 : UIState := ⟨"Idle.", 0, true, none⟩

/-- Environment: mkdir succeeds, nothing on disk, download succeeds with no
callbacks. -/
def envOkEmpty : WorkerEnv := ⟨Except.ok (), fsNone, DownloadOutcome.ok []⟩

/-- Environment: mkdir succeeds, bundled FFmpeg present, download succeeds. -/
def envAllOk : WorkerEnv := ⟨Except.ok (), fsAll, DownloadOutcome.ok []⟩

/-- Environment: `os.makedirs` raises. -/
def envMkdirFail : WorkerEnv := ⟨Except.error "Permission denied", fsNone, DownloadOutcome.ok []⟩

/-- Environment: the library call raises mid-download. -/
def envRaises : WorkerEnv := ⟨Except.ok (), fsNone, DownloadOutcome.raises [] "network down"⟩

/-!  ## Theorems -/

/-- C5: every `progress` payload `p` read by the poll loop is rendered as
`max 0 (min 1 (p / 100))`, which lies in `[0, 1]` and equals the clamp of
`p` into `[0, 100]` divided by 100. -/
theorem progress_clamped_on_render (p : ℚ) :
    0 ≤ render_progress p ∧ render_progress p ≤ 1 ∧
      render_progress p = max 0 (min 100 p) / 100 := by
  refine ⟨le_max_left _ _, max_le (by norm_num) (min_le_left _ _), ?_⟩
  unfold render_progress
  rcases le_total p 0 with h | h
  · have hp : p / 100 ≤ 0 := div_nonpos_of_nonpos_of_nonneg h (by norm_num)
    rw [min_eq_right (hp.trans (by norm_num : (0:ℚ) ≤ 1)), max_eq_left hp,
      min_eq_right (h.trans (by norm_num : (0:ℚ) ≤ 100)), max_eq_left h]
    norm_num
  · rcases le_total p 100 with h2 | h2
    · have hp : p / 100 ≤ 1 := by
        rw [div_le_one (by norm_num : (0:ℚ) < 100)]; exact h2
      have hp0 : 0 ≤ p / 100 := div_nonneg h (by norm_num)
      rw [min_eq_right hp, max_eq_right hp0, min_eq_right h2, max_eq_right h]
    · have hp : 1 ≤ p / 100 := (one_le_div (by norm_num : (0:ℚ) < 100)).mpr h2
      rw [min_eq_left hp, max_eq_right (by norm_num : (0:ℚ) ≤ 1), min_eq_left h2,
        max_eq_right (by norm_num : (0:ℚ) ≤ 100)]
      norm_num

/-- C6: when the stripped URL is empty, `start_download` shows the validation
error dialog, spawns no worker, leaves the busy flag untouched, and resets
nothing. -/
theorem empty_url_rejected (baseDir : String) (inp : UIInput)
    (h : pyStrip inp.link_text = "") :
    start_download baseDir inp =
      { error_dialog := some "Please enter a YouTube video link."
        spawned := none
        busy_set := none
        progress_reset := false
        status_set := none } := by
  unfold start_download
  rw [if_pos h]

/-- C6 witness: the whitespace-only URL `"   "` is rejected. -/
theorem empty_url_rejected_witness :
    pyStrip uiEmptyUrl.link_text = "" ∧
      start_download "/base" uiEmptyUrl =
        { error_dialog := some "Please enter a YouTube video link."
          spawned := none
          busy_set := none
          progress_reset := false
          status_set := none } :=
  ⟨by decide, empty_url_rejected "/base" uiEmptyUrl (by decide)⟩

/-- C2: for a job in mode `audio`, the configuration's format expression is
`bestaudio/best` and its sole postprocessor is `FFmpegExtractAudio` with
preferred codec `mp3` and preferred quality exactly the job's bitrate. -/
theorem audio_format_policy (job : Job) (ffmpeg_ok : Bool) (baseDir : String)
    (h : job.mode = "audio") :
    ∃ o, ydl_opts job ffmpeg_ok baseDir = some o ∧
      o.format = some "bestaudio/best" ∧
      o.postprocessors = [Postprocessor.FFmpegExtractAudio "mp3" job.mp3_kbps] := by
  unfold ydl_opts
  rw [h, if_pos rfl]
  exact ⟨_, rfl, rfl, rfl⟩

/-- C2 witness: the audio job at bitrate 320. -/
theorem audio_format_policy_witness :
    jobAudio.mode = "audio" ∧
      ∃ o, ydl_opts jobAudio true "/base" = some o ∧
        o.format = some "bestaudio/best" ∧
        o.postprocessors = [Postprocessor.FFmpegExtractAudio "mp3" "320"] :=
  ⟨rfl, audio_format_policy jobAudio true "/base" rfl⟩

/-- C1: for a job in mode `video` whose height is one of the UI's numeric
choices, the format expression's alternatives are the height-constrained
primary `bestvideo[ext=mp4][height<=H]+bestaudio[ext=m4a]` followed by three
fallbacks ending in `best`; for quality `best` no alternative mentions
`height<=`; in both cases the configuration sets `merge_output_format` to
`mp4` and installs an `FFmpegVideoConvertor` postprocessor targeting `mp4`. -/
theorem video_format_height_policy (job : Job) (ffmpeg_ok : Bool) (baseDir : String)
    (hmode : job.mode = "video") (hmenu : job.mp4_height ∈ mp4_menu_values) :
    ∃ o, ydl_opts job ffmpeg_ok baseDir = some o ∧
      o.merge_output_format = some "mp4" ∧
      o.postprocessors = [Postprocessor.FFmpegVideoConvertor "mp4"] ∧
      o.format = some (video_format_expr job.mp4_height) ∧
      (job.mp4_height ≠ "best" →
        alternatives (video_format_expr job.mp4_height) =
          ["bestvideo[ext=mp4][height<=" ++ job.mp4_height ++ "]+bestaudio[ext=m4a]",
           "bestvideo[height<=" ++ job.mp4_height ++ "]+bestaudio",
           "best[height<=" ++ job.mp4_height ++ "]",
           "best"]) ∧
      (job.mp4_height = "best" →
        ∀ alt ∈ alternatives (video_format_expr job.mp4_height),
          strHasSubstr "height<=" alt = false) := by
  unfold ydl_opts
  rw [hmode, if_neg (by decide), if_pos rfl]
  refine ⟨_, rfl, rfl, rfl, rfl, ?_, ?_⟩
  · intro hne
    simp only [mp4_menu_values, List.mem_cons, List.not_mem_nil, or_false] at hmenu
    rcases hmenu with h | h | h | h | h | h | h
    · exact absurd h hne
    all_goals rw [h]; decide
  · intro hb
    rw [hb]
    decide

/-- C1 witness: the height-720 video job yields the documented primary
alternative and three fallbacks. -/
theorem video_format_height_policy_witness :
    (jobVideo.mode = "video" ∧ jobVideo.mp4_height ∈ mp4_menu_values) ∧
      ∃ o, ydl_opts jobVideo true "/base" = some o ∧
        o.merge_output_format = some "mp4" ∧
        o.postprocessors = [Postprocessor.FFmpegVideoConvertor "mp4"] ∧
        o.format = some (video_format_expr jobVideo.mp4_height) ∧
        (jobVideo.mp4_height ≠ "best" →
          alternatives (video_format_expr jobVideo.mp4_height) =
            ["bestvideo[ext=mp4][height<=" ++ jobVideo.mp4_height ++ "]+bestaudio[ext=m4a]",
             "bestvideo[height<=" ++ jobVideo.mp4_height ++ "]+bestaudio",
             "best[height<=" ++ jobVideo.mp4_height ++ "]",
             "best"]) ∧
        (jobVideo.mp4_height = "best" →
          ∀ alt ∈ alternatives (video_format_expr jobVideo.mp4_height),
            strHasSubstr "height<=" alt = false) :=
  ⟨⟨rfl, by decide⟩, video_format_height_policy jobVideo true "/base" rfl (by decide)⟩

/-! Helper lemmas about the worker's event trace. -/

/-- The progress hook emits only `status` and `progress` events. -/
lemma progress_hook_not_terminal (d : ProgressDict) :
    ∀ e ∈ progress_hook d, e.isTerminal = false := by
  intro e he
  simp only [progress_hook] at he
  split at he
  · split at he
    · split at he
      · rcases List.mem_cons.mp he with rfl | he2
        · rfl
        · rcases List.mem_cons.mp he2 with rfl | he3
          · rfl
          · exact absurd he3 (List.not_mem_nil _)
      · rcases List.mem_cons.mp he with rfl | he2
        · rfl
        · exact absurd he2 (List.not_mem_nil _)
    · rcases List.mem_cons.mp he with rfl | he2
      · rfl
      · exact absurd he2 (List.not_mem_nil _)
  · split at he
    · rcases List.mem_cons.mp he with rfl | he2
      · rfl
      · rcases List.mem_cons.mp he2 with rfl | he3
        · rfl
        · exact absurd he3 (List.not_mem_nil _)
    · exact absurd he (List.not_mem_nil _)

/-- The events of a whole download's callbacks are all non-terminal. -/
lemma hook_events_not_terminal (cbs : List ProgressDict) :
    ∀ e ∈ hook_events cbs, e.isTerminal = false := by
  intro e he
  unfold hook_events at he
  simp only [List.mem_flatten, List.mem_map] at he
  obtain ⟨l, ⟨d, _, rfl⟩, hel⟩ := he
  exact progress_hook_not_terminal d e hel

/-- The pre-dispatch events are all non-terminal. -/
lemma ffmpeg_pre_not_terminal (b : Bool) :
    ∀ e ∈ ffmpeg_pre b, e.isTerminal = false := by
  intro e he
  cases b <;> simp_all [ffmpeg_pre, Event.isTerminal]

/-- When `os.makedirs` returns, the worker runs its body. -/
lemma worker_of_ok (baseDir : String) (job : Job) (env : WorkerEnv)
    (h : env.mkdir_result = Except.ok ()) :
    download_worker baseDir job env = worker_body baseDir job env := by
  unfold download_worker
  rw [h]

/-- Lemma: `run_download` is non-terminal events followed by exactly one terminal
event, which is the `done` event naming the output directory iff the library
call returned. -/
lemma run_download_shape (job : Job) (env : WorkerEnv) :
    ∃ pre t, run_download job env = pre ++ [t] ∧
      (∀ e ∈ pre, e.isTerminal = false) ∧ t.isTerminal = true ∧
      (∀ cbs, env.outcome = DownloadOutcome.ok cbs →
        t = Event.done ("Complete!\nSaved in:\n" ++ job.out_dir)) ∧
      (∀ cbs m, env.outcome = DownloadOutcome.raises cbs m →
        t = Event.error ("An error occurred:\n" ++ m)) := by
  rcases hout : env.outcome with cbs | ⟨cbs, msg⟩
  · refine ⟨hook_events cbs, Event.done ("Complete!\nSaved in:\n" ++ job.out_dir), ?_,
      hook_events_not_terminal cbs, rfl, fun _ _ => rfl, fun cbs2 m h2 => ?_⟩
    · unfold run_download
      rw [hout]
    · exact absurd h2 (by simp)
  · refine ⟨hook_events cbs, Event.error ("An error occurred:\n" ++ msg), ?_,
      hook_events_not_terminal cbs, rfl, fun cbs2 h2 => ?_, fun cbs2 m h2 => ?_⟩
    · unfold run_download
      rw [hout]
    · exact absurd h2 (by simp)
    · injection h2 with _ hm
      rw [hm]

/-- The worker's trace is a list of non-terminal events followed by exactly
one terminal event; on the fully successful path that terminal event is the
`done` event naming the output directory. -/
lemma worker_shape (baseDir : String) (job : Job) (env : WorkerEnv) :
    ∃ pre t, download_worker baseDir job env = pre ++ [t] ∧
      (∀ e ∈ pre, e.isTerminal = false) ∧ t.isTerminal = true ∧
      (env.mkdir_result = Except.ok () →
        (job.mode = "audio" ∨ job.mode = "video") →
        ∀ cbs, env.outcome = DownloadOutcome.ok cbs →
          t = Event.done ("Complete!\nSaved in:\n" ++ job.out_dir)) := by
  rcases henv : env.mkdir_result with e | u
  · refine ⟨[], Event.error ("An error occurred:\n" ++ e), ?_, by simp, rfl, ?_⟩
    · unfold download_worker
      rw [henv]
      rfl
    · intro hk
      exact absurd hk (by simp)
  · obtain ⟨⟩ := u
    have hw := worker_of_ok baseDir job env henv
    by_cases ha : job.mode = "audio"
    · obtain ⟨p, t, hrd, hp, ht, hdone, _⟩ := run_download_shape job env
      refine ⟨ffmpeg_pre (_ffmpeg_bundle_ok env.fs (FFMPEG_BIN_DIR baseDir)) ++ p, t, ?_, ?_, ht, ?_⟩
      · rw [hw]
        unfold worker_body
        rw [if_pos ha, hrd, List.append_assoc]
      · intro x hx
        rcases List.mem_append.mp hx with h | h
        · exact ffmpeg_pre_not_terminal _ x h
        · exact hp x h
      · intro _ _ cbs hcbs
        exact hdone cbs hcbs
    · by_cases hv : job.mode = "video"
      · obtain ⟨p, t, hrd, hp, ht, hdone, _⟩ := run_download_shape job env
        refine ⟨ffmpeg_pre (_ffmpeg_bundle_ok env.fs (FFMPEG_BIN_DIR baseDir)) ++
          Event.status (video_label job.mp4_height) :: p, t, ?_, ?_, ht, ?_⟩
        · rw [hw]
          unfold worker_body
          rw [if_neg ha, if_pos hv, hrd]
          simp [List.append_assoc]
        · intro x hx
          rcases List.mem_append.mp hx with h | h
          · exact ffmpeg_pre_not_terminal _ x h
          · rcases List.mem_cons.mp h with h | h
            · rw [h]; rfl
            · exact hp x h
        · intro _ _ cbs hcbs
          exact hdone cbs hcbs
      · refine ⟨ffmpeg_pre (_ffmpeg_bundle_ok env.fs (FFMPEG_BIN_DIR baseDir)),
          Event.error ("An error occurred:\n" ++ "Invalid mode. Expected 'audio' or 'video'."),
          ?_, ffmpeg_pre_not_terminal _, rfl, ?_⟩
        · rw [hw]
          unfold worker_body
          rw [if_neg ha, if_neg hv]
        · intro _ hmode
          rcases hmode with h | h
          · exact absurd h ha
          · exact absurd h hv

/-- Running the poll loop on non-terminal events followed by one terminal
event consumes the whole queue, stops with the terminal flag set, and leaves
the busy flag cleared. -/
lemma poll_queue_drains (pre : List Event) (t : Event) (s : UIState)
    (hp : ∀ e ∈ pre, e.isTerminal = false) (ht : t.isTerminal = true) :
    ∃ s2, poll_queue (pre ++ [t]) s = (s2, [], true) ∧ s2.busy = false := by
  induction pre generalizing s with
  | nil =>
    cases t with
    | status m => simp [Event.isTerminal] at ht
    | progress p => simp [Event.isTerminal] at ht
    | done m => exact ⟨_, rfl, rfl⟩
    | error m => exact ⟨_, rfl, rfl⟩
  | cons e rest ih =>
    have hrest : ∀ x ∈ rest, x.isTerminal = false :=
      fun x hx => hp x (List.mem_cons_of_mem _ hx)
    cases e with
    | status m =>
      rw [List.cons_append]
      exact ih { s with status_text := m } hrest
    | progress p =>
      rw [List.cons_append]
      exact ih { s with progress_frac := render_progress p } hrest
    | done m =>
      have := hp _ (List.mem_cons_self _ _)
      simp [Event.isTerminal] at this
    | error m =>
      have := hp _ (List.mem_cons_self _ _)
      simp [Event.isTerminal] at this

/-- C3: for every job and environment, the worker's trace consists of
non-terminal (`status`/`progress`) events followed by exactly one terminal
event — a single `done` or a single `error`, never both — and nothing
follows the terminal event; on the successful path the terminal event is the
`done` event naming the output directory. -/
theorem worker_single_terminal_event (baseDir : String) (job : Job) (env : WorkerEnv) :
    ∃ pre t, download_worker baseDir job env = pre ++ [t] ∧
      (∀ e ∈ pre, e.isTerminal = false) ∧
      ((∃ m, t = Event.done m) ∨ (∃ m, t = Event.error m)) ∧
      (env.mkdir_result = Except.ok () →
        (job.mode = "audio" ∨ job.mode = "video") →
        ∀ cbs, env.outcome = DownloadOutcome.ok cbs →
          t = Event.done ("Complete!\nSaved in:\n" ++ job.out_dir)) := by
  obtain ⟨pre, t, htr, hpre, ht, hdone⟩ := worker_shape baseDir job env
  refine ⟨pre, t, htr, hpre, ?_, hdone⟩
  cases t with
  | status m => simp [Event.isTerminal] at ht
  | progress p => simp [Event.isTerminal] at ht
  | done m => exact Or.inl ⟨m, rfl⟩
  | error m => exact Or.inr ⟨m, rfl⟩

/-- C3 witness: on a fully successful audio job with no callbacks the trace
decomposes as stated. -/
theorem worker_single_terminal_event_witness :
    ∃ pre t, download_worker "/base" jobAudio envOkEmpty = pre ++ [t] ∧
      (∀ e ∈ pre, e.isTerminal = false) ∧
      ((∃ m, t = Event.done m) ∨ (∃ m, t = Event.error m)) ∧
      (envOkEmpty.mkdir_result = Except.ok () →
        (jobAudio.mode = "audio" ∨ jobAudio.mode = "video") →
        ∀ cbs, envOkEmpty.outcome = DownloadOutcome.ok cbs →
          t = Event.done ("Complete!\nSaved in:\n" ++ jobAudio.out_dir)) :=
  worker_single_terminal_event "/base" jobAudio envOkEmpty

/-- C9: feeding the worker's full trace to the poll loop, the loop stops at
the terminal event with nothing left on the queue and the busy flag cleared:
the delivery channel is drained completely at the moment the UI is
re-armed. -/
theorem channel_drained_on_rearm (baseDir : String) (job : Job) (env : WorkerEnv)
    (s : UIState) :
    ∃ s2, poll_queue (download_worker baseDir job env) s = (s2, [], true) ∧
      s2.busy = false := by
  obtain ⟨pre, t, htr, hp, ht, _⟩ := worker_shape baseDir job env
  rw [htr]
  exact poll_queue_drains pre t s hp ht

/-- C4: every exception inside the worker is caught at its boundary and
becomes a single `error` event (the worker is a total function into traces:
it never raises).  A failing `os.makedirs` yields exactly one `error` event;
a mode other than `audio`/`video` hits the `raise ValueError` branch and
yields a single `error` event wrapping its message, with no `done` event
anywhere; an exception from the library yields a single terminal `error`
event wrapping its message. -/
theorem worker_error_boundary (baseDir : String) (job : Job) (env : WorkerEnv) :
    (∀ m, env.mkdir_result = Except.error m →
      download_worker baseDir job env = [Event.error ("An error occurred:\n" ++ m)]) ∧
    (job.mode ≠ "audio" → job.mode ≠ "video" → env.mkdir_result = Except.ok () →
      download_worker baseDir job env =
        ffmpeg_pre (_ffmpeg_bundle_ok env.fs (FFMPEG_BIN_DIR baseDir)) ++
          [Event.error ("An error occurred:\n" ++ "Invalid mode. Expected 'audio' or 'video'.")] ∧
      (∀ m, Event.done m ∉ download_worker baseDir job env)) ∧
    (∀ cbs m, env.mkdir_result = Except.ok () →
      env.outcome = DownloadOutcome.raises cbs m →
      (job.mode = "audio" ∨ job.mode = "video") →
      ∃ pre, download_worker baseDir job env =
          pre ++ [Event.error ("An error occurred:\n" ++ m)] ∧
        ∀ e ∈ pre, e.isTerminal = false) := by
  refine ⟨?_, ?_, ?_⟩
  · intro m h
    unfold download_worker
    rw [h]
  · intro ha hv hk
    have hw := worker_of_ok baseDir job env hk
    have htr : download_worker baseDir job env =
        ffmpeg_pre (_ffmpeg_bundle_ok env.fs (FFMPEG_BIN_DIR baseDir)) ++
          [Event.error ("An error occurred:\n" ++ "Invalid mode. Expected 'audio' or 'video'.")] := by
      rw [hw]
      unfold worker_body
      rw [if_neg ha, if_neg hv]
    refine ⟨htr, ?_⟩
    intro m hmem
    rw [htr] at hmem
    rcases List.mem_append.mp hmem with h | h
    · have := ffmpeg_pre_not_terminal _ _ h
      simp [Event.isTerminal] at this
    · rcases List.mem_cons.mp h with h2 | h2
      · exact Event.noConfusion h2
      · exact absurd h2 (List.not_mem_nil _)
  · intro cbs m hk hout hmode
    have hw := worker_of_ok baseDir job env hk
    have hrun : run_download job env =
        hook_events cbs ++ [Event.error ("An error occurred:\n" ++ m)] := by
      unfold run_download
      rw [hout]
    rcases hmode with h | h
    · refine ⟨ffmpeg_pre (_ffmpeg_bundle_ok env.fs (FFMPEG_BIN_DIR baseDir)) ++
        hook_events cbs, ?_, ?_⟩
      · rw [hw]
        unfold worker_body
        rw [if_pos h, hrun, List.append_assoc]
      · intro e he
        rcases List.mem_append.mp he with h2 | h2
        · exact ffmpeg_pre_not_terminal _ e h2
        · exact hook_events_not_terminal cbs e h2
    · refine ⟨ffmpeg_pre (_ffmpeg_bundle_ok env.fs (FFMPEG_BIN_DIR baseDir)) ++
        Event.status (video_label job.mp4_height) :: hook_events cbs, ?_, ?_⟩
      · rw [hw]
        unfold worker_body
        rw [if_neg (by rw [h]; decide), if_pos h, hrun]
        simp [List.append_assoc]
      · intro e he
        rcases List.mem_append.mp he with h2 | h2
        · exact ffmpeg_pre_not_terminal _ e h2
        · rcases List.mem_cons.mp h2 with rfl | h3
          · rfl
          · exact hook_events_not_terminal cbs e h3

/-- C4 witness: a failing mkdir, the invalid mode `playlist`, and a library
failure `network down` each produce the single wrapped `error` event. -/
theorem worker_error_boundary_witness :
    download_worker "/base" jobAudio envMkdirFail =
        [Event.error ("An error occurred:\n" ++ "Permission denied")] ∧
    download_worker "/base" jobBadMode envOkEmpty =
        ffmpeg_pre (_ffmpeg_bundle_ok envOkEmpty.fs (FFMPEG_BIN_DIR "/base")) ++
          [Event.error ("An error occurred:\n" ++ "Invalid mode. Expected 'audio' or 'video'.")] ∧
    ∃ pre, download_worker "/base" jobAudio envRaises =
        pre ++ [Event.error ("An error occurred:\n" ++ "network down")] ∧
      ∀ e ∈ pre, e.isTerminal = false :=
  ⟨(worker_error_boundary "/base" jobAudio envMkdirFail).1 "Permission denied" rfl,
   ((worker_error_boundary "/base" jobBadMode envOkEmpty).2.1 (by decide) (by decide) rfl).1,
   (worker_error_boundary "/base" jobAudio envRaises).2.2 [] "network down" rfl rfl (Or.inl rfl)⟩

/-- No string starting with `'D'` is the bundled-FFmpeg fallback notice
(which starts with `'B'`). -/
lemma append_ne_bundled (a s t : String) (l : List Char) (ha : a.data = 'D' :: l) :
    a ++ s ++ t ≠ bundled_missing_msg := by
  intro h
  have hd : (a ++ s ++ t).data = bundled_missing_msg.data := by rw [h]
  rw [String.data_append, String.data_append, ha] at hd
  have h2 : bundled_missing_msg.data =
      'B' :: "undled FFmpeg not found. Using system FFmpeg (PATH)…".data := rfl
  rw [h2, List.cons_append, List.cons_append] at hd
  injection hd with h3 _
  exact absurd h3 (by decide)

/-- The video status label is never the fallback notice. -/
lemma label_ne_bundled (h : String) : video_label h ≠ bundled_missing_msg := by
  unfold video_label
  split
  · decide
  · exact append_ne_bundled "Downloading MP4 (≤" h "p)…" _ rfl

/-- The progress hook never emits the fallback notice. -/
lemma hook_no_bundled (d : ProgressDict) :
    Event.status bundled_missing_msg ∉ progress_hook d := by
  intro hmem
  simp only [progress_hook] at hmem
  split at hmem
  · split at hmem
    · split at hmem
      · rcases List.mem_cons.mp hmem with h | h
        · exact Event.noConfusion h
        · rcases List.mem_cons.mp h with h2 | h2
          · injection h2 with h3
            exact append_ne_bundled "Downloading… " _ "%" _ rfl h3.symm
          · exact absurd h2 (List.not_mem_nil _)
      · rcases List.mem_cons.mp hmem with h | h
        · injection h with h3
          exact absurd h3 (by decide)
        · exact absurd h (List.not_mem_nil _)
    · rcases List.mem_cons.mp hmem with h | h
      · injection h with h3
        exact absurd h3 (by decide)
      · exact absurd h (List.not_mem_nil _)
  · split at hmem
    · rcases List.mem_cons.mp hmem with h | h
      · exact Event.noConfusion h
      · rcases List.mem_cons.mp h with h2 | h2
        · injection h2 with h3
          exact absurd h3 (by decide)
        · exact absurd h2 (List.not_mem_nil _)
    · exact absurd hmem (List.not_mem_nil _)

/-- No callback of a whole download emits the fallback notice. -/
lemma hook_events_no_bundled (cbs : List ProgressDict) :
    Event.status bundled_missing_msg ∉ hook_events cbs := by
  intro hmem
  unfold hook_events at hmem
  simp only [List.mem_flatten, List.mem_map] at hmem
  obtain ⟨l, ⟨d, _, rfl⟩, hel⟩ := hmem
  exact hook_no_bundled d hel

/-- The download phase never emits the fallback notice. -/
lemma run_download_no_bundled (job : Job) (env : WorkerEnv) :
    Event.status bundled_missing_msg ∉ run_download job env := by
  intro hmem
  unfold run_download at hmem
  split at hmem
  · rcases List.mem_append.mp hmem with h | h
    · exact hook_events_no_bundled _ h
    · rcases List.mem_cons.mp h with h2 | h2
      · exact Event.noConfusion h2
      · exact absurd h2 (List.not_mem_nil _)
  · rcases List.mem_append.mp hmem with h | h
    · exact hook_events_no_bundled _ h
    · rcases List.mem_cons.mp h with h2 | h2
      · exact Event.noConfusion h2
      · exact absurd h2 (List.not_mem_nil _)

/-- C7: when the bundle check fails the worker does not fail — the
configuration omits the `ffmpeg_location` override, a `status` event
announces the fallback to the ambient PATH, and a successful library call
still reaches its `done` event; when both executables are present the
override is the bundled directory and no fallback notice is ever emitted. -/
theorem ffmpeg_fallback_policy (baseDir : String) (job : Job) (env : WorkerEnv)
    (hmk : env.mkdir_result = Except.ok ()) :
    (_ffmpeg_bundle_ok env.fs (FFMPEG_BIN_DIR baseDir) = false →
      (base_opts job (_ffmpeg_bundle_ok env.fs (FFMPEG_BIN_DIR baseDir)) baseDir).ffmpeg_location =
        none ∧
      Event.status bundled_missing_msg ∈ download_worker baseDir job env ∧
      (∀ cbs, env.outcome = DownloadOutcome.ok cbs →
        (job.mode = "audio" ∨ job.mode = "video") →
        Event.done ("Complete!\nSaved in:\n" ++ job.out_dir) ∈ download_worker baseDir job env)) ∧
    (_ffmpeg_bundle_ok env.fs (FFMPEG_BIN_DIR baseDir) = true →
      (base_opts job (_ffmpeg_bundle_ok env.fs (FFMPEG_BIN_DIR baseDir)) baseDir).ffmpeg_location =
        some (FFMPEG_BIN_DIR baseDir) ∧
      Event.status bundled_missing_msg ∉ download_worker baseDir job env) := by
  have hw := worker_of_ok baseDir job env hmk
  constructor
  · intro hfalse
    refine ⟨by simp [base_opts, hfalse], ?_, ?_⟩
    · rw [hw]
      unfold worker_body
      rw [hfalse]
      by_cases ha : job.mode = "audio"
      · rw [if_pos ha]
        exact List.mem_append.mpr (Or.inl (by simp [ffmpeg_pre]))
      · by_cases hv : job.mode = "video"
        · rw [if_neg ha, if_pos hv]
          simp [ffmpeg_pre]
        · rw [if_neg ha, if_neg hv]
          simp [ffmpeg_pre]
    · intro cbs hout hmode
      rw [hw]
      unfold worker_body
      have hrun : run_download job env =
          hook_events cbs ++ [Event.done ("Complete!\nSaved in:\n" ++ job.out_dir)] := by
        unfold run_download
        rw [hout]
      rcases hmode with h | h
      · rw [if_pos h, hrun]
        simp
      · rw [if_neg (by rw [h]; decide), if_pos h, hrun]
        simp
  · intro htrue
    refine ⟨by simp [base_opts, htrue], ?_⟩
    intro hmem
    rw [hw] at hmem
    unfold worker_body at hmem
    rw [htrue] at hmem
    by_cases ha : job.mode = "audio"
    · rw [if_pos ha] at hmem
      rcases List.mem_append.mp hmem with h | h
      · simp [ffmpeg_pre] at h
      · exact run_download_no_bundled job env h
    · by_cases hv : job.mode = "video"
      · rw [if_neg ha, if_pos hv] at hmem
        rcases List.mem_append.mp hmem with h | h
        · rcases List.mem_append.mp h with h2 | h2
          · simp [ffmpeg_pre] at h2
          · rcases List.mem_cons.mp h2 with h3 | h3
            · injection h3 with h4
              exact label_ne_bundled job.mp4_height h4.symm
            · exact absurd h3 (List.not_mem_nil _)
        · exact run_download_no_bundled job env h
      · rw [if_neg ha, if_neg hv] at hmem
        rcases List.mem_append.mp hmem with h | h
        · simp [ffmpeg_pre] at h
        · rcases List.mem_cons.mp h with h3 | h3
          · exact Event.noConfusion h3
          · exact absurd h3 (List.not_mem_nil _)

/-- C7 witness: with nothing on disk the override is omitted and the fallback
notice is emitted; with both executables present the override is the bundled
directory and no fallback notice appears. -/
theorem ffmpeg_fallback_policy_witness :
    ((base_opts jobAudio false "/base").ffmpeg_location = none ∧
      Event.status bundled_missing_msg ∈ download_worker "/base" jobAudio envOkEmpty) ∧
    ((base_opts jobAudio true "/base").ffmpeg_location = some (FFMPEG_BIN_DIR "/base") ∧
      Event.status bundled_missing_msg ∉ download_worker "/base" jobAudio envAllOk) := by
  have h1 := (ffmpeg_fallback_policy "/base" jobAudio envOkEmpty rfl).1 rfl
  have h2 := (ffmpeg_fallback_policy "/base" jobAudio envAllOk rfl).2 rfl
  exact ⟨⟨h1.1, h1.2.1⟩, h2.1, h2.2⟩

/-- For a job in mode `audio`, the full configuration. -/
lemma ydl_opts_audio_eq (job : Job) (fok : Bool) (b : String) (h : job.mode = "audio") :
    ydl_opts job fok b = some { base_opts job fok b with
      format := some "bestaudio/best"
      postprocessors := [Postprocessor.FFmpegExtractAudio "mp3" job.mp3_kbps] } := by
  unfold ydl_opts
  rw [h, if_pos rfl]

/-- C8: with a non-empty URL and an empty (stripped) destination field, the
spawned job's output directory defaults to `<base>/downloads`; the worker's
directory creation (`_safe_mkdir`) makes the directory exist and is
idempotent — creating an existing directory changes nothing and raises no
error; and in mode `audio` the configuration requests MP3 at the selected
bitrate. -/
theorem default_out_dir_policy (baseDir : String) (inp : UIInput) (fok : Bool)
    (hurl : pyStrip inp.link_text ≠ "") (hfold : pyStrip inp.folder_text = "") :
    (∃ j, (start_download baseDir inp).spawned = some j ∧
        j.out_dir = pathJoin baseDir "downloads" ∧
        j.url = pyStrip inp.link_text ∧ j.mode = inp.mode_sel ∧
        j.mp3_kbps = inp.mp3_sel) ∧
    (inp.mode_sel = "audio" →
      ∃ j o, (start_download baseDir inp).spawned = some j ∧
        ydl_opts j fok baseDir = some o ∧
        o.postprocessors = [Postprocessor.FFmpegExtractAudio "mp3" inp.mp3_sel]) ∧
    (∀ dirs p, p ∈ _safe_mkdir dirs p ∧
      _safe_mkdir (_safe_mkdir dirs p) p = _safe_mkdir dirs p) := by
  have hs : (start_download baseDir inp).spawned =
      some { url := pyStrip inp.link_text, out_dir := pathJoin baseDir "downloads",
             mode := inp.mode_sel, mp3_kbps := inp.mp3_sel, mp4_height := inp.mp4_sel } := by
    unfold start_download
    rw [if_neg hurl, if_pos hfold]
  refine ⟨⟨_, hs, rfl, rfl, rfl, rfl⟩, ?_, ?_⟩
  · intro hmode
    exact ⟨_, _, hs, ydl_opts_audio_eq _ fok baseDir hmode, rfl⟩
  · intro dirs p
    constructor
    · by_cases hin : p ∈ dirs <;> simp [_safe_mkdir, hin]
    · by_cases hin : p ∈ dirs <;> simp [_safe_mkdir, hin]

/-- C8 witness: the spec's scenario — audio at 320, empty destination
field. -/
theorem default_out_dir_policy_witness :
    (∃ j, (start_download "/base" uiScenario).spawned = some j ∧
        j.out_dir = pathJoin "/base" "downloads" ∧
        j.url = pyStrip uiScenario.link_text ∧ j.mode = uiScenario.mode_sel ∧
        j.mp3_kbps = uiScenario.mp3_sel) ∧
    (uiScenario.mode_sel = "audio" →
      ∃ j o, (start_download "/base" uiScenario).spawned = some j ∧
        ydl_opts j false "/base" = some o ∧
        o.postprocessors = [Postprocessor.FFmpegExtractAudio "mp3" "320"]) ∧
    (∀ dirs p, p ∈ _safe_mkdir dirs p ∧
      _safe_mkdir (_safe_mkdir dirs p) p = _safe_mkdir dirs p) :=
  default_out_dir_policy "/base" uiScenario false (by decide) (by decide)

/-- C10: in the `downloading` phase, a `progress` event is emitted iff a
positive total byte count (exact, or falling back to the estimate) is known;
in that case the percentage is `downloaded / total * 100` with `total > 0`
(so the division is never by zero or by an absent total), and otherwise only
the bare `status` event without a percentage is emitted. -/
theorem progress_requires_positive_total (d : ProgressDict)
    (h : d.status = some "downloading") :
    ((∃ p, Event.progress p ∈ progress_hook d) ↔
      ∃ t, pyOr d.total_bytes d.total_bytes_estimate = some t ∧ 0 < t) ∧
    (∀ t, pyOr d.total_bytes d.total_bytes_estimate = some t → 0 < t →
      progress_hook d =
        [Event.progress (d.downloaded_bytes.getD 0 / t * 100),
         Event.status ("Downloading… " ++ fmt1 (d.downloaded_bytes.getD 0 / t * 100) ++ "%")]) ∧
    ((pyOr d.total_bytes d.total_bytes_estimate = none ∨
        ∃ t, pyOr d.total_bytes d.total_bytes_estimate = some t ∧ ¬0 < t) →
      progress_hook d = [Event.status "Downloading…"]) := by
  have hhook : progress_hook d =
      (match pyOr d.total_bytes d.total_bytes_estimate with
       | some t =>
         if 0 < t then
           [Event.progress (d.downloaded_bytes.getD 0 / t * 100),
            Event.status ("Downloading… " ++ fmt1 (d.downloaded_bytes.getD 0 / t * 100) ++ "%")]
         else [Event.status "Downloading…"]
       | none => [Event.status "Downloading…"]) := by
    unfold progress_hook
    rw [if_pos h]
  rcases hT : pyOr d.total_bytes d.total_bytes_estimate with _ | t
  · rw [hT] at hhook
    refine ⟨?_, ?_, fun _ => hhook⟩
    · constructor
      · rintro ⟨p, hp⟩
        rw [hhook] at hp
        rcases List.mem_cons.mp hp with h2 | h2
        · exact Event.noConfusion h2
        · exact absurd h2 (List.not_mem_nil _)
      · rintro ⟨t2, ht2, _⟩
        exact Option.noConfusion ht2
    · intro t2 ht2
      exact absurd ht2 (by simp)
  · rw [hT] at hhook
    have hhook2 : progress_hook d =
        (if 0 < t then
          [Event.progress (d.downloaded_bytes.getD 0 / t * 100),
           Event.status ("Downloading… " ++ fmt1 (d.downloaded_bytes.getD 0 / t * 100) ++ "%")]
         else [Event.status "Downloading…"]) := hhook
    by_cases h0 : 0 < t
    · rw [if_pos h0] at hhook2
      refine ⟨?_, ?_, ?_⟩
      · constructor
        · intro _
          exact ⟨t, rfl, h0⟩
        · intro _
          refine ⟨d.downloaded_bytes.getD 0 / t * 100, ?_⟩
          rw [hhook2]
          exact List.mem_cons_self _ _
      · intro t2 ht2 h02
        injection ht2 with ht3
        rw [hhook2, ht3]
      · intro hc
        rcases hc with hc | ⟨t2, ht2, h02⟩
        · exact Option.noConfusion hc
        · injection ht2 with ht3
          rw [← ht3] at h02
          exact absurd h0 h02
    · rw [if_neg h0] at hhook2
      refine ⟨?_, ?_, fun _ => hhook2⟩
      · constructor
        · rintro ⟨p, hp⟩
          rw [hhook2] at hp
          rcases List.mem_cons.mp hp with h2 | h2
          · exact Event.noConfusion h2
          · exact absurd h2 (List.not_mem_nil _)
        · rintro ⟨t2, ht2, h02⟩
          injection ht2 with ht3
          rw [← ht3] at h02
          exact absurd h02 h0
      · intro t2 ht2 h02
        injection ht2 with ht3
        rw [← ht3] at h02
        exact absurd h02 h0

/-- C10 witness: a callback with no total yields only the bare status event;
a callback with total 200 yields a progress event. -/
theorem progress_requires_positive_total_witness :
    progress_hook dictNoTotal = [Event.status "Downloading…"] ∧
    ∃ p, Event.progress p ∈ progress_hook dictTotal :=
  ⟨(progress_requires_positive_total dictNoTotal rfl).2.2 (Or.inl rfl),
   ((progress_requires_positive_total dictTotal rfl).1).mpr ⟨200, rfl, by norm_num⟩⟩

end YtConv
